import Mathlib

/-!
# Repro Wizard: a verification development

A shallow embedding of `background.js` of the Repro Wizard browser extension
(response sanitising, model registry, menu construction, click dispatch,
provider response handling, info pages), followed by theorems about it.

JavaScript strings are modelled by Lean strings, i.e. sequences of Unicode
scalar values.  None of the characters the code inspects (the backtick, the
`\s` class, `&`, `<`, `>`, decimal digits) lies outside the Basic Multilingual
Plane, so reading a string as code points instead of UTF-16 code units does not
change any function below; strings with unpaired surrogates are not represented.
-/

namespace ReproWizard

/-! ## Characters and strings -/

/-- ECMAScript `LineTerminator`: LF, CR, LS, PS.  With the `m` flag, `$` matches
before any of these and at the end of the input. -/
def isLineTerminator (c : Char) : Bool :=
  c.toNat = 0x0A || c.toNat = 0x0D || c.toNat = 0x2028 || c.toNat = 0x2029

/-- The regular-expression class `\s` (ECMAScript `WhiteSpace` and
`LineTerminator`); `String.prototype.trim` strips exactly the same characters. -/
def isJsSpace (c : Char) : Bool :=
  c.toNat = 0x09 || c.toNat = 0x0B || c.toNat = 0x0C || c.toNat = 0x20 || c.toNat = 0xA0 ||
  c.toNat = 0x1680 || (0x2000 ≤ c.toNat && c.toNat ≤ 0x200A) || c.toNat = 0x202F ||
  c.toNat = 0x205F || c.toNat = 0x3000 || c.toNat = 0xFEFF || isLineTerminator c

/-- The backtick character (U+0060). -/
def backtick : Char := Char.ofNat 96

/-- The triple-backtick marker, as a list of characters. -/
def fence : List Char := [backtick, backtick, backtick]

/-- When the text starts with the triple-backtick marker, the text after it. -/
def afterFence : List Char → Option (List Char)
  | a :: b :: c :: rest =>
    if a = backtick ∧ b = backtick ∧ c = backtick then some rest else none
  | _ => none

/-- The text contains a triple backtick somewhere. -/
def hasFence (s : String) : Prop := fence <:+: s.data

instance hasFenceDecidable (s : String) : Decidable (hasFence s) :=
  inferInstanceAs (Decidable (fence <:+: s.data))

/-- `String.prototype.trim` on a list of characters. -/
def trimChars (s : List Char) : List Char :=
  (s.dropWhile isJsSpace).rdropWhile isJsSpace

/-- `String.prototype.trim`. -/
def trim (s : String) : String := ⟨trimChars s.data⟩

/-- `text.replace(/^```[\s\S]*?\n/, "")`: without the `m` flag `^` only matches
at offset 0; the lazy `[\s\S]*?` stops at the first line feed after the marker.
When the text does not start with the marker, or no line feed follows it, there
is no match and the text is returned unchanged. -/
def removeOpeningFence (text : List Char) : List Char :=
  match afterFence text with
  | some rest =>
    if '\n' ∈ rest then (rest.dropWhile (fun x => x != '\n')).drop 1 else text
  | none => text

/-- The tail `[\s]*$` of the closing-fence pattern (flag `m`), run at the
position right after a marker: the number of whitespace characters the greedy
star ends up consuming, or `none` when the pattern fails there.  The star first
takes the next whitespace character and continues; only when that fails does it
give the character back and test `$` at the current position, which holds at the
end of the input and before a line terminator. -/
def matchSpacesToLineEnd : List Char → Option Nat
  | [] => some 0
  | c :: cs =>
    if isJsSpace c then
      match matchSpacesToLineEnd cs with
      | some k => some (k + 1)
      | none => if isLineTerminator c then some 0 else none
    else none

/-- The pattern `/```[\s]*$/m` tried at the start of the text: what remains of
the text after the match, if it matches here. -/
def closingFenceAt (text : List Char) : Option (List Char) :=
  match afterFence text with
  | some rest =>
    match matchSpacesToLineEnd rest with
    | some k => some (rest.drop k)
    | none => none
  | none => none

/-- `text.replace(/```[\s]*$/m, "")`: the pattern has no `g` flag, so only the
leftmost match is removed. -/
def removeClosingFence : List Char → List Char
  | [] => []
  | c :: cs =>
    match closingFenceAt (c :: cs) with
    | some out => out
    | none => c :: removeClosingFence cs

/-- The function `stripCodeFences` of `background.js`, on a string argument.
`!text` holds of a string exactly when it is empty. -/
def stripCodeFences (text : String) : String :=
  if text = "" then ""
  else trim ⟨removeClosingFence (removeOpeningFence text.data)⟩

/-- `String.prototype.startsWith`. -/
def startsWith (s p : String) : Bool := p.data.isPrefixOf s.data

/-- `s.slice(n)` for an offset `n` that falls on a character boundary. -/
def slice (s : String) (n : Nat) : String := ⟨s.data.drop n⟩

/-- `haystack.includes(needle)`. -/
def includes (haystack needle : String) : Prop := needle.data <:+: haystack.data

instance includesDecidable (haystack needle : String) : Decidable (includes haystack needle) :=
  inferInstanceAs (Decidable (needle.data <:+: haystack.data))

/-- `str.replace(/c/g, rep)` for a single character `c`. -/
def replaceAllChar (c : Char) (rep : List Char) (s : List Char) : List Char :=
  s.flatMap (fun x => if x = c then rep else [x])

/-- The function `escapeHtml` of `background.js`, on a string argument: three
global replacements one after the other. -/
def escapeHtml (str : String) : String :=
  ⟨replaceAllChar '>' "&gt;".data
    (replaceAllChar '<' "&lt;".data
      (replaceAllChar '&' "&amp;".data str.data))⟩

/-- Value of a run of decimal digits, most significant first. -/
def digitsValue (ds : List Char) : Nat :=
  ds.foldl (fun acc c => 10 * acc + (c.toNat - 48)) 0

/-- `parseInt(s, 10)`: skips leading whitespace, reads an optional sign, then the
longest run of decimal digits; `none` stands for `NaN`.  The value is the exact
integer, which is what the double holds below `2 ^ 53`; array positions are below
`2 ^ 32`, so indexing with the result agrees with JavaScript. -/
def parseInt (s : String) : Option Int :=
  let body := s.data.dropWhile isJsSpace
  let signed : Bool × List Char :=
    match body with
    | '-' :: r => (true, r)
    | '+' :: r => (false, r)
    | r => (false, r)
  let ds := signed.2.takeWhile Char.isDigit
  if ds = [] then none
  else if signed.1 then some (- (digitsValue ds : Int)) else some (digitsValue ds : Int)

/-- The text starts with the rest of one of the entities `&amp;`, `&lt;`, `&gt;`,
that is, with what follows the ampersand. -/
def EntityTail (post : List Char) : Prop :=
  "amp;".data <+: post ∨ "lt;".data <+: post ∨ "gt;".data <+: post

/-- Every ampersand of the text is the first character of one of the entities
`&amp;`, `&lt;`, `&gt;`. -/
def AmpersandsEscaped (l : List Char) : Prop :=
  ∀ pre post, l = pre ++ '&' :: post → EntityTail post

/-- The ten decimal digit characters. -/
def decimalDigits : List Char := "0123456789".data

/-- The three replacements, seen one input character at a time. -/
def escapeChar (x : Char) : List Char :=
  if x = '&' then "&amp;".data
  else if x = '<' then "&lt;".data
  else if x = '>' then "&gt;".data
  else [x]

/-! ## JavaScript values -/

/-- The values that `JSON.parse`, `res.json()` and `storage.local.get` can hand to
the code, plus `undefined`.  Numbers carry an integer: the code only ever tests a
number for truthiness. -/
inductive JsVal where
  | undefined : JsVal
  | null : JsVal
  | bool (b : Bool) : JsVal
  | num (n : Int) : JsVal
  | str (s : String) : JsVal
  | arr (items : List JsVal) : JsVal
  | obj (fields : List (String × JsVal)) : JsVal

/-- What a piece of code can throw. -/
inductive JsError where
  /-- Thrown by `throw new Error(message)`. -/
  | thrown (message : String) : JsError
  /-- Raised by the engine: reading a property of `null` or `undefined`, or
  calling something that is not a function. -/
  | typeError : JsError
  /-- Rejection reported by the platform (`fetch`, `res.json()`), with the name
  and the message of the error object. -/
  | platform (name message : String) : JsError

namespace JsVal

/-- Truthiness (`ToBoolean`). -/
def truthy : JsVal → Bool
  | undefined => false
  | null => false
  | bool b => b
  | num n => n != 0
  | str s => s != ""
  | arr _ => true
  | obj _ => true

/-- Strict equality with a string: `v === s`. -/
def isStr (v : JsVal) (s : String) : Bool :=
  match v with
  | str t => t == s
  | _ => false

/-- `Array.isArray(v)`. -/
def isArray : JsVal → Bool
  | arr _ => true
  | _ => false

/-- Property read `v.key` for a key that is not an array index and that no
built-in prototype defines (all keys used by the code are of this kind).  Reading
from `null` or `undefined` raises a `TypeError`; a primitive, or an object
without the key, gives `undefined`. -/
def getProp (v : JsVal) (key : String) : Except JsError JsVal :=
  match v with
  | undefined => .error .typeError
  | null => .error .typeError
  | obj fields => .ok ((fields.lookup key).getD undefined)
  | _ => .ok undefined

/-- Indexed read `v[i]`.  On a string it yields the one-character string at that
position. -/
def getIndex (v : JsVal) (i : Nat) : Except JsError JsVal :=
  match v with
  | undefined => .error .typeError
  | null => .error .typeError
  | arr items => .ok ((items.get? i).getD undefined)
  | obj fields => .ok ((fields.lookup (toString i)).getD undefined)
  | str s => .ok (match s.data.get? i with
      | some c => str (String.singleton c)
      | none => undefined)
  | _ => .ok undefined

/-- `a || b` with `b` already evaluated. -/
def orElse (a b : JsVal) : JsVal := if a.truthy then a else b

/-- `a && b`: `b` is evaluated, and can throw, only when `a` is truthy. -/
def andThen (a : JsVal) (b : Except JsError JsVal) : Except JsError JsVal :=
  if a.truthy then b else .ok a

end JsVal

/-! ## Model registry -/

/-- A resolved model entry, as built by `getModelOptions`. -/
structure ModelSpec where
  id : JsVal
  label : JsVal
  provider : JsVal
  model : JsVal

/-- Object literal with the four fields of a model entry. -/
def modelObject (id label provider model : String) : JsVal :=
  .obj [("id", .str id), ("label", .str label), ("provider", .str provider),
    ("model", .str model)]

/-- The constant `DEFAULT_MODELS` of `background.js`. -/
def DEFAULT_MODELS : List JsVal :=
  [ modelObject "openai-gpt-4.1" "OpenAI - gpt-4.1" "openai" "gpt-4.1",
    modelObject "openai-gpt-4.1-mini" "OpenAI - gpt-4.1-mini" "openai" "gpt-4.1-mini",
    modelObject "gemini-2.5-flash" "Gemini - gemini-2.5-flash" "gemini" "gemini-2.5-flash" ]

/-- `a || b` where both operands are expressions that may throw: `b` is
evaluated only when `a` is falsy. -/
def orElseM (a b : Except JsError JsVal) : Except JsError JsVal := do
  let v ← a
  if v.truthy then pure v else b

/-- The callback of `models.map` in `getModelOptions`, applied to the entry `m`
at position `idx`. -/
def normalizeModel (m : JsVal) (idx : Nat) : Except JsError ModelSpec := do
  let id ← orElseM (m.getProp "id") (pure (.str ("model-" ++ toString idx)))
  let label ← orElseM (m.getProp "label")
    (orElseM (m.getProp "name")
      (orElseM (m.getProp "model") (pure (.str ("Model " ++ toString (idx + 1))))))
  let provider ← orElseM (m.getProp "provider") (pure (.str "openai"))
  let model ← orElseM (m.getProp "model") (pure (.str "gpt-4.1"))
  pure { id := id, label := label, provider := provider, model := model }

/-- `models.map(callback)` from position `idx` on. -/
def normalizeFrom (idx : Nat) : List JsVal → Except JsError (List ModelSpec)
  | [] => .ok []
  | m :: ms => do
    let spec ← normalizeModel m idx
    let rest ← normalizeFrom (idx + 1) ms
    pure (spec :: rest)

/-- The function `getModelOptions` of `background.js`; `stored` is the value of
`result.models`, which is `null` when the key was never saved. -/
def getModelOptions (stored : JsVal) : Except JsError (List ModelSpec) :=
  match stored with
  | .arr (m :: ms) => normalizeFrom 0 (m :: ms)
  | _ => normalizeFrom 0 DEFAULT_MODELS

/-- The object literal that the callback of `models.map` returns, as a value. -/
def ModelSpec.toObject (spec : ModelSpec) : JsVal :=
  .obj [("id", spec.id), ("label", spec.label), ("provider", spec.provider),
    ("model", spec.model)]

/-- A field value of a persisted entry that is a text, `null` or `undefined`. -/
def IsTextOrMissing (v : JsVal) : Prop :=
  v = .undefined ∨ v = .null ∨ ∃ s, v = .str s

/-- A persisted model entry in which any field may be missing or empty: an
object whose field values are texts, `null` or `undefined`. -/
def IsPartialEntry (m : JsVal) : Prop :=
  ∃ fields, m = .obj fields ∧ ∀ kv ∈ fields, IsTextOrMissing kv.2

/-- The value is a non-empty text. -/
def NonEmptyText (v : JsVal) : Prop :=
  ∃ s, v = .str s ∧ s ≠ ""

/-! ## Provider clients -/

/-- The request a generator sends.  The URL, the headers and the JSON body of the
`fetch` call are determined by the provider, the API key, the model name and the
two prompts. -/
inductive FetchRequest where
  | openai (apiKey : String) (model : JsVal) (systemPrompt userPrompt : String) : FetchRequest
  | gemini (apiKey : String) (model : JsVal) (systemPrompt userPrompt : String) : FetchRequest

/-- The parts of a `Response` the code looks at. -/
structure HttpResponse where
  /-- Field `res.status`. -/
  status : Nat
  /-- Result of `res.text()`; `none` when reading the body fails. -/
  text : Option String
  /-- Result of `res.json()`. -/
  json : Except JsError JsVal

/-- `res.ok`: the status is in the range 200 to 299. -/
def HttpResponse.ok (res : HttpResponse) : Bool :=
  decide (200 ≤ res.status) && decide (res.status ≤ 299)

/-- How a `fetch` call ends. -/
inductive FetchOutcome where
  | rejected (e : JsError) : FetchOutcome
  | response (res : HttpResponse) : FetchOutcome

/-- Something the extension does to the outside world. -/
inductive Effect where
  /-- One `fetch` call. -/
  | fetch (req : FetchRequest) : Effect
  /-- `ext.tabs.create` on a blob URL holding this HTML document. -/
  | tabCreate (html : String) : Effect
  /-- `ext.downloads.download` of the same document under this file name. -/
  | download (html : String) (filename : String) : Effect

/-- The environment of one click: the stored settings, the network, and what
the platform provides. -/
structure Env where
  /-- Stored `models`, `null` when absent. -/
  models : JsVal
  /-- Stored `openaiApiKey`, `""` when absent. -/
  openaiApiKey : String
  /-- Stored `geminiApiKey`, `""` when absent. -/
  geminiApiKey : String
  /-- Stored `autoDownload`, `true` when absent. -/
  autoDownload : Bool
  /-- The answer of the network to a request. -/
  fetch : FetchRequest → FetchOutcome
  /-- `ext.downloads && ext.downloads.download` is truthy. -/
  downloadsAvailable : Bool
  /-- `new Date().toISOString()` at the time of the download. -/
  nowIso : String
  /-- Message the engine gives its `TypeError`s. -/
  typeErrorMessage : String

/-- The constant `systemPrompt`, identical in both generators. -/
def systemPrompt : String :=
  "You are an elite front-end engineer with deep knowledge of browser " ++
  "rendering, JavaScript, CSS, and Web APIs.\n" ++
  "Given a bug report, you must output a SINGLE, SELF-CONTAINED HTML " ++
  "test page that reproduces or illustrates the bug.\n\n" ++
  "Requirements:\n" ++
  "  - Use only vanilla HTML/CSS/JS (no external libraries).\n" ++
  "  - Put CSS in <style> and JS in <script> inside the same HTML file.\n" ++
  "  - Add concise comments explaining what the page is testing and " ++
  "    how to trigger the behavior.\n" ++
  "  - Add any image, audio, or video file/link in the file if necessary to reproduce the bug.\n" ++
  "  - Run the test page by a button click and show the result on page.\n" ++
  "  - Make page as minimal as possible. No fancy UI or extra features.\n" ++
  "  - Prioritize clear variable names rather than excessive comments.\n" ++
  "  - Do NOT wrap the result in markdown fences. Output ONLY raw HTML."

/-- The `userPrompt` of both generators. -/
def userPrompt (bugReportText : String) : String :=
  "Bug report (from Bugzilla or similar):\n\n" ++ bugReportText

/-- `text ? sep + text : ""`, where `text` is `await res.text().catch(() => "")`. -/
def errorBodySuffix (sep : String) (text : Option String) : String :=
  match text with
  | some t => if t = "" then "" else sep ++ t
  | none => ""

/-- Lines 277 to 283 of `generateHtmlWithOpenAI`: the `&&` chain down to
`data.choices[0].message.content`, then `content || ""`. -/
def extractOpenAIText (data : JsVal) : Except JsError JsVal := do
  let choices ← data.getProp "choices"
  let content ← choices.andThen (do
    let first ← choices.getIndex 0
    first.andThen (do
      let message ← first.getProp "message"
      message.andThen (message.getProp "content")))
  pure (content.orElse (.str ""))

/-- The callback `(p) => (typeof p.text === "string" ? p.text : "")`. -/
def partText (p : JsVal) : Except JsError String := do
  let t ← p.getProp "text"
  match t with
  | .str s => pure s
  | _ => pure ""

/-- `parts.map(callback)`: the callback runs on the parts in order, and the first
exception ends the loop. -/
def partTexts : List JsVal → Except JsError (List String)
  | [] => .ok []
  | p :: ps => do
    let t ← partText p
    let rest ← partTexts ps
    pure (t :: rest)

/-- Lines 353 to 363 of `generateHtmlWithGemini`. -/
def extractGeminiText (data : JsVal) : Except JsError JsVal := do
  let candidates := (← data.getProp "candidates").orElse (.arr [])
  let first ← candidates.getIndex 0
  let hasParts ← first.andThen (do
    let content ← first.getProp "content"
    content.andThen (do
      let parts ← content.getProp "parts"
      pure (.bool parts.isArray)))
  let text ←
    if hasParts.truthy then do
      let content ← first.getProp "content"
      let parts ← content.getProp "parts"
      match parts with
      | .arr ps => do
        let pieces ← partTexts ps
        pure (String.join pieces)
      | _ => pure ""
    else pure ""
  pure ((JsVal.str text).orElse (.str ""))

/-- The function `generateHtmlWithOpenAI`: the effects it performs and its result. -/
def generateHtmlWithOpenAI (env : Env) (apiKey : String) (modelSpec : ModelSpec)
    (bugReportText : String) : List Effect × Except JsError JsVal :=
  let req := FetchRequest.openai apiKey modelSpec.model systemPrompt (userPrompt bugReportText)
  ([Effect.fetch req],
    match env.fetch req with
    | .rejected e => .error e
    | .response res =>
      if res.ok then do
        let data ← res.json
        extractOpenAIText data
      else
        .error (.thrown ("OpenAI API error: HTTP " ++ toString res.status ++
          errorBodySuffix " - " res.text)))

/-- The function `generateHtmlWithGemini`: the effects it performs and its result. -/
def generateHtmlWithGemini (env : Env) (apiKey : String) (modelSpec : ModelSpec)
    (bugReportText : String) : List Effect × Except JsError JsVal :=
  let req := FetchRequest.gemini apiKey modelSpec.model systemPrompt (userPrompt bugReportText)
  ([Effect.fetch req],
    match env.fetch req with
    | .rejected e => .error e
    | .response res =>
      if res.ok then do
        let data ← res.json
        extractGeminiText data
      else
        .error (.thrown ("Gemini API error: HTTP " ++ toString res.status ++
          errorBodySuffix " – " res.text)))

mutual
/-- `String(v)`: objects print as `[object Object]`, arrays as their elements
joined with commas, `null` and `undefined` elements as nothing. -/
def jsToString : JsVal → String
  | .str s => s
  | .bool b => if b then "true" else "false"
  | .num n => toString n
  | .null => "null"
  | .undefined => "undefined"
  | .obj _ => "[object Object]"
  | .arr items => jsJoin items
/-- `items.join(",")`. -/
def jsJoin : List JsVal → String
  | [] => ""
  | [x] => jsElemText x
  | x :: y :: rest => jsElemText x ++ "," ++ jsJoin (y :: rest)
/-- The text of one array element inside `join`. -/
def jsElemText : JsVal → String
  | .null => ""
  | .undefined => ""
  | .str s => s
  | .bool b => if b then "true" else "false"
  | .num n => toString n
  | .obj _ => "[object Object]"
  | .arr items => jsJoin items
end

/-- The function `generateHtmlForModel`. -/
def generateHtmlForModel (env : Env) (modelSpec : ModelSpec) (bugReportText : String) :
    List Effect × Except JsError JsVal :=
  let provider := modelSpec.provider.orElse (.str "openai")
  if provider.isStr "openai" then
    generateHtmlWithOpenAI env env.openaiApiKey modelSpec bugReportText
  else if provider.isStr "gemini" then
    generateHtmlWithGemini env env.geminiApiKey modelSpec bugReportText
  else
    ([], .error (.thrown ("Unknown provider: " ++ jsToString provider)))

/-- The value is `null` or `undefined`. -/
def JsVal.isNullish : JsVal → Bool
  | .null => true
  | .undefined => true
  | _ => false

/-- The text a part contributes: its `text` field when that is a string. -/
def partTextOf (p : JsVal) : String :=
  match p with
  | .obj fields =>
    match fields.lookup "text" with
    | some (.str s) => s
    | _ => ""
  | _ => ""

/-! ## Presentation -/

/-- The file name built by `openHtmlInNewTab`: the ISO time stamp with every
colon and dot replaced by a hyphen. -/
def downloadFileName (nowIso : String) : String :=
  "bug-test-" ++ String.map (fun c => if c = ':' ∨ c = '.' then '-' else c) nowIso ++ ".html"

/-- The function `openHtmlInNewTab`: one tab, then one download when asked for
and available.  A failing download is only logged. -/
def openHtmlInNewTab (env : Env) (html : String) (autoDownload : Bool) : List Effect :=
  Effect.tabCreate html ::
    (if autoDownload && env.downloadsAvailable then
      [Effect.download html (downloadFileName env.nowIso)]
    else [])

/-- The document text that `openInfoTab` builds. -/
def infoHtml (title bodyText : String) : String :=
  "<!doctype html>" ++
  "<html><head><meta charset='utf-8'><title>" ++
  escapeHtml title ++
  "</title>" ++
  "<style>body\x7bfont-family:sans-serif;padding:16px;background:#111;color:#eee;\x7d" ++
  "h1\x7bfont-size:18px;margin:0 0 10px;\x7dpre\x7bwhite-space:pre-wrap;background:#222;padding:8px;border-radius:4px;\x7d</style>" ++
  "</head><body>" ++
  "<h1>" ++
  escapeHtml title ++
  "</h1>" ++
  "<pre>" ++
  escapeHtml bodyText ++
  "</pre>" ++
  "</body></html>"

/-- The function `openInfoTab`. -/
def openInfoTab (env : Env) (title bodyText : String) : List Effect :=
  openHtmlInNewTab env (infoHtml title bodyText) false

/-! ## Menu controller -/

/-- A call to the context-menu API. -/
inductive MenuOp where
  | removeAll : MenuOp
  | create (id : String) (parentId : Option String) (title : JsVal) : MenuOp

/-- The constant `"bugtest-model-"` that starts every child menu id. -/
def modelIdHead : String := "bugtest-model-"

/-- The id given to the child entry at position `index`. -/
def childMenuId (index : Nat) : String := modelIdHead ++ toString index

/-- The `models.forEach` loop of `ensureMenus`, from position `index` on. -/
def childMenusFrom (index : Nat) : List ModelSpec → List MenuOp
  | [] => []
  | model :: rest =>
    MenuOp.create (childMenuId index) (some "bugtest-root") model.label ::
      childMenusFrom (index + 1) rest

/-- The function `ensureMenus`: the menu calls it makes, in order. -/
def ensureMenus (env : Env) : Except JsError (List MenuOp) := do
  let models ← getModelOptions env.models
  pure (MenuOp.removeAll ::
    MenuOp.create "bugtest-root" none (.str "Generate test page") ::
    childMenusFrom 0 models)

/-- The argument `info` of the click listener. -/
structure ClickInfo where
  /-- Field `info.selectionText`; `none` when the property is absent. -/
  selectionText : Option String
  /-- Field `info.menuItemId`, a string or a number. -/
  menuItemId : JsVal

/-- `models[idx]` for the number `idx` (`none` for `NaN`): `undefined`, here
`none`, unless `idx` is a position of the array. -/
def modelAt (models : List ModelSpec) (idx : Option Int) : Option ModelSpec :=
  match idx with
  | some (Int.ofNat n) => models.get? n
  | _ => none

/-- Lines 138 to 140 of the click listener: the index parsed from the menu id,
and the entry found there. -/
def selectModel (models : List ModelSpec) (id : String) : Option ModelSpec :=
  modelAt models (parseInt (slice id modelIdHead.length))

/-- `String(err && err.message ? err.message : err)` in the `catch` block. -/
def errorText (env : Env) (err : JsError) : String :=
  match err with
  | .thrown message => if message = "" then "Error" else message
  | .typeError => if env.typeErrorMessage = "" then "TypeError" else env.typeErrorMessage
  | .platform name message => if message = "" then name else message

/-- The `catch` block of the click listener. -/
def showError (env : Env) (err : JsError) : List Effect :=
  openInfoTab env "Repro Wizard - Error"
    ("An error occurred while generating the test page:\n\n" ++ errorText env err)

/-- `stripCodeFences(html)` on whatever value the generator returned: a falsy
value gives `""`; a truthy value that is not a string has no `replace` method. -/
def stripCodeFencesOf (html : JsVal) : Except JsError String :=
  if html.truthy then
    match html with
    | .str s => .ok (stripCodeFences s)
    | _ => .error .typeError
  else .ok ""

/-- Title of the page shown when no OpenAI key is configured. -/
def openaiSetupTitle : String := "Repro Wizard - OpenAI setup required"

/-- Body of the page shown when no OpenAI key is configured. -/
def openaiSetupBody : String :=
  "You selected an OpenAI model, but no OpenAI API key is configured.\n\n" ++
  "Go to the extension's options page and paste your OpenAI API key.\n\n" ++
  "Note: ChatGPT Plus/Pro uses a different billing system; " ++
  "you still need an API key from the OpenAI platform."

/-- Title of the page shown when no Gemini key is configured. -/
def geminiSetupTitle : String := "Repro Wizard - Gemini setup required"

/-- Body of the page shown when no Gemini key is configured. -/
def geminiSetupBody : String :=
  "You selected a Google Gemini model, but no Gemini API key is configured.\n\n" ++
  "Get a Gemini API key from Google AI Studio (aistudio.google.com), " ++
  "then paste it into the extension's options page."

/-- Title of the page shown when the clicked entry no longer exists. -/
def notFoundTitle : String := "Repro Wizard - Model not found"

/-- Body of the page shown when the clicked entry no longer exists. -/
def notFoundBody : String :=
  "The selected model entry could not be found. " ++
  "Try opening the options page and saving your models again."

/-- Lines 151 to 191 of the click listener, once the model is resolved: the key
checks, the generation, the sanitising and the presentation. -/
def runModel (env : Env) (model : ModelSpec) (selectionText : String) : List Effect :=
  if model.provider.isStr "openai" && env.openaiApiKey == "" then
    openInfoTab env openaiSetupTitle openaiSetupBody
  else if model.provider.isStr "gemini" && env.geminiApiKey == "" then
    openInfoTab env geminiSetupTitle geminiSetupBody
  else
    let run := generateHtmlForModel env model selectionText
    match run.2 with
    | .error err => run.1 ++ showError env err
    | .ok html =>
      match stripCodeFencesOf html with
      | .error err => run.1 ++ showError env err
      | .ok cleanedHtml =>
        if cleanedHtml = "" then
          run.1 ++ openInfoTab env "Repro Wizard - Empty response"
            "The AI response was empty or could not be parsed."
        else run.1 ++ openHtmlInNewTab env cleanedHtml env.autoDownload

/-- The listener registered with `ext.contextMenus.onClicked`: everything it
does to the outside world, in order. -/
def onClicked (env : Env) (info : ClickInfo) : List Effect :=
  match info.selectionText with
  | none =>
    openInfoTab env "Repro Wizard"
      "No text selected. Please select a bug report before using the menu."
  | some selectionText =>
    if selectionText = "" then
      openInfoTab env "Repro Wizard"
        "No text selected. Please select a bug report before using the menu."
    else
      match info.menuItemId with
      | .str id =>
        if startsWith id modelIdHead then
          match getModelOptions env.models with
          | .error err => showError env err
          | .ok models =>
            match selectModel models id with
            | none => openInfoTab env notFoundTitle notFoundBody
            | some model => runModel env model selectionText
        else []
      | _ => []

/-! ## Sample environments -/

/-- A network that answers every request with status 503 and the body `busy`. -/
def busyNetwork : FetchRequest → FetchOutcome :=
  fun _ => .response { status := 503, text := some "busy", json := .error .typeError }

/-- An environment with the built-in models, the given keys and the busy network. -/
def sampleEnv (openaiApiKey geminiApiKey : String) : Env :=
  { models := .null
    openaiApiKey := openaiApiKey
    geminiApiKey := geminiApiKey
    autoDownload := true
    fetch := busyNetwork
    downloadsAvailable := true
    nowIso := "2025-01-02T03:04:05.678Z"
    typeErrorMessage := "p is null" }

/-- The entries that `getModelOptions` builds from `DEFAULT_MODELS`. -/
def defaultSpecs : List ModelSpec :=
  [ ⟨.str "openai-gpt-4.1", .str "OpenAI - gpt-4.1", .str "openai", .str "gpt-4.1"⟩,
    ⟨.str "openai-gpt-4.1-mini", .str "OpenAI - gpt-4.1-mini", .str "openai", .str "gpt-4.1-mini"⟩,
    ⟨.str "gemini-2.5-flash", .str "Gemini - gemini-2.5-flash", .str "gemini",
      .str "gemini-2.5-flash"⟩ ]

/-! # Theorems -/

/-! ## Lemmas on the fence patterns -/

theorem afterFence_eq_some_iff (l rest : List Char) :
    afterFence l = some rest ↔ l = fence ++ rest := by
  rcases l with _ | ⟨a, _ | ⟨b, _ | ⟨c, r⟩⟩⟩ <;> simp [afterFence, fence]
  constructor
  · rintro ⟨⟨ha, hb, hc⟩, hr⟩
    exact ⟨ha, hb, hc, hr⟩
  · rintro ⟨ha, hb, hc, hr⟩
    exact ⟨⟨ha, hb, hc⟩, hr⟩

theorem afterFence_append (rest : List Char) : afterFence (fence ++ rest) = some rest :=
  (afterFence_eq_some_iff _ _).2 rfl

theorem afterFence_none_of_no_fence_start (l : List Char) (h : ¬ fence <+: l) :
    afterFence l = none := by
  cases hl : afterFence l with
  | none => rfl
  | some rest =>
    exact absurd ⟨rest, ((afterFence_eq_some_iff _ _).1 hl).symm⟩ h

theorem closingFenceAt_none_of_no_fence_start (l : List Char) (h : ¬ fence <+: l) :
    closingFenceAt l = none := by
  simp [closingFenceAt, afterFence_none_of_no_fence_start l h]

theorem removeOpeningFence_of_no_fence_start (l : List Char) (h : ¬ fence <+: l) :
    removeOpeningFence l = l := by
  simp [removeOpeningFence, afterFence_none_of_no_fence_start l h]

/-- When the pattern `[\s]*$` fails after every marker of the text, the closing
replacement changes nothing. -/
theorem removeClosingFence_of_no_match (l : List Char)
    (h : ∀ pre post, l = pre ++ fence ++ post → matchSpacesToLineEnd post = none) :
    removeClosingFence l = l := by
  induction l with
  | nil => rfl
  | cons c cs ih =>
    have hat : closingFenceAt (c :: cs) = none := by
      cases hf : afterFence (c :: cs) with
      | none => simp [closingFenceAt, hf]
      | some rest =>
        have hm := h [] rest (by simpa using (afterFence_eq_some_iff _ _).1 hf)
        simp [closingFenceAt, hf, hm]
    have ih2 : removeClosingFence cs = cs := by
      apply ih
      intro pre post hcs
      exact h (c :: pre) post (by simp [hcs])
    simp [removeClosingFence, hat, ih2]

theorem removeClosingFence_of_no_fence (l : List Char) (h : ¬ fence <:+: l) :
    removeClosingFence l = l := by
  apply removeClosingFence_of_no_match
  intro pre post hl
  exact absurd ⟨pre, post, hl.symm⟩ h

theorem matchSpacesToLineEnd_blocked (gap : List Char) (c : Char) (rest : List Char)
    (hgap : ∀ x ∈ gap, isLineTerminator x = false) (hc : isJsSpace c = false) :
    matchSpacesToLineEnd (gap ++ c :: rest) = none := by
  induction gap with
  | nil => simp [matchSpacesToLineEnd, hc]
  | cons g gs ih =>
    have hg : isLineTerminator g = false := hgap g (by simp)
    have ih2 := ih (fun x hx => hgap x (by simp [hx]))
    show matchSpacesToLineEnd (g :: (gs ++ c :: rest)) = none
    unfold matchSpacesToLineEnd
    rw [ih2]
    simp [hg]

/-- A fenced body followed by a line feed and the closing marker loses exactly
the marker. -/
theorem removeClosingFence_body (b : List Char) (hb : ¬ fence <:+: b) :
    removeClosingFence (b ++ '\n' :: fence) = b ++ ['\n'] := by
  induction b with
  | nil => decide
  | cons c cs ih =>
    have hcs : ¬ fence <:+: cs := fun hin => hb (List.infix_cons hin)
    have hat : closingFenceAt (c :: (cs ++ '\n' :: fence)) = none := by
      apply closingFenceAt_none_of_no_fence_start
      intro hpre
      rcases cs with _ | ⟨d, _ | ⟨e, r⟩⟩
      · rcases hpre with ⟨t, ht⟩
        simp [fence, backtick] at ht
      · rcases hpre with ⟨t, ht⟩
        simp [fence, backtick] at ht
      · apply hb
        rcases hpre with ⟨t, ht⟩
        simp [fence] at ht
        obtain ⟨h1, h2, h3, _⟩ := ht
        subst h1 h2 h3
        exact ⟨[], r, rfl⟩
    simp [removeClosingFence, hat, ih hcs]

/-! ## Lemmas on `trim` -/

theorem dropWhile_eq_self_of_head (p : Char → Bool) (l : List Char)
    (h : ∀ c, l.head? = some c → p c = false) : l.dropWhile p = l := by
  cases l with
  | nil => rfl
  | cons a t => simp [List.dropWhile, h a rfl]

theorem rdropWhile_eq_self_of_getLast (p : Char → Bool) (l : List Char)
    (h : ∀ c, l.getLast? = some c → p c = false) : l.rdropWhile p = l := by
  rw [List.rdropWhile_eq_self_iff]
  intro hl
  have := h (l.getLast hl) (List.getLast?_eq_getLast l hl)
  simp [this]

theorem trimChars_of_clean (l : List Char)
    (hh : ∀ c, l.head? = some c → isJsSpace c = false)
    (hl : ∀ c, l.getLast? = some c → isJsSpace c = false) : trimChars l = l := by
  unfold trimChars
  rw [dropWhile_eq_self_of_head _ _ hh, rdropWhile_eq_self_of_getLast _ _ hl]

theorem head_trimChars (l : List Char) (c : Char) (h : (trimChars l).head? = some c) :
    isJsSpace c = false := by
  unfold trimChars at h
  have hpre : (l.dropWhile isJsSpace).rdropWhile isJsSpace <+: l.dropWhile isJsSpace :=
    List.rdropWhile_prefix isJsSpace _
  rcases hpre with ⟨t, ht⟩
  cases hr : (l.dropWhile isJsSpace).rdropWhile isJsSpace with
  | nil => simp [hr] at h
  | cons a r =>
    rw [hr] at h ht
    simp at h
    subst h
    have hpos : 0 < (l.dropWhile isJsSpace).length := by rw [← ht]; simp
    have := List.dropWhile_get_zero_not isJsSpace l hpos
    have hget : (l.dropWhile isJsSpace).get ⟨0, hpos⟩ = a := by
      simp [← ht]
    rw [hget] at this
    simpa using this

theorem getLast_trimChars (l : List Char) (c : Char) (h : (trimChars l).getLast? = some c) :
    isJsSpace c = false := by
  unfold trimChars at h
  have hne : (l.dropWhile isJsSpace).rdropWhile isJsSpace ≠ [] := by
    intro hnil
    simp [hnil] at h
  have := List.rdropWhile_last_not isJsSpace (l.dropWhile isJsSpace) hne
  rw [List.getLast?_eq_getLast _ hne] at h
  simp at h
  rw [h] at this
  simpa using this

theorem trimChars_idem (l : List Char) : trimChars (trimChars l) = trimChars l :=
  trimChars_of_clean _ (head_trimChars l) (getLast_trimChars l)

theorem trimChars_within (l : List Char) : trimChars l <:+: l := by
  unfold trimChars
  exact (List.rdropWhile_prefix isJsSpace _).isInfix.trans (List.dropWhile_suffix _).isInfix

theorem trim_stripCodeFences (x : String) : trim (stripCodeFences x) = stripCodeFences x := by
  unfold stripCodeFences
  split
  · rfl
  · simp [trim, trimChars_idem]

theorem dropWhile_ne_append (t : List Char) (r : List Char) (ht : '\n' ∉ t) :
    (t ++ '\n' :: r).dropWhile (fun x => x != '\n') = '\n' :: r := by
  induction t with
  | nil => simp [List.dropWhile]
  | cons a t ih =>
    have ha : a ≠ '\n' := fun h => ht (by simp [h])
    have ht2 : '\n' ∉ t := fun h => ht (by simp [h])
    have hne : (a != '\n') = true := by simp [ha]
    simp [List.dropWhile, hne, ih ht2]

theorem fence_data : ("```" : String).data = fence := by decide

/-! ## Response sanitiser -/

/-- A text without a triple backtick is only trimmed, and stays without one. -/
theorem stripCodeFences_of_clean (x : String) (h : ¬ hasFence x) :
    stripCodeFences x = trim x ∧ ¬ hasFence (stripCodeFences x) := by
  have heq : stripCodeFences x = trim x := by
    unfold stripCodeFences
    split
    · next he => subst he; decide
    · rw [removeOpeningFence_of_no_fence_start _ (fun hp => h hp.isInfix),
        removeClosingFence_of_no_fence _ h]
  refine ⟨heq, ?_⟩
  rw [heq]
  intro hf
  exact h (List.IsInfix.trans hf (trimChars_within x.data))

/-- Claim C1, counterexample: on the text made of six backticks the sanitiser
returns three backticks, and sanitising those returns the empty text, so
`stripCodeFences` is not idempotent on every text. -/
theorem stripCodeFences_not_idempotent :
    stripCodeFences "``````" = "```" ∧ stripCodeFences "```" = "" ∧
      stripCodeFences (stripCodeFences "``````") ≠ stripCodeFences "``````" := by
  decide

/-- Claim C1, amended: for every text `x` whose sanitised form contains no triple
backtick, sanitising a second time changes nothing:
`stripCodeFences (stripCodeFences x) = stripCodeFences x`. -/
theorem stripCodeFences_idempotent_of_clean (x : String)
    (h : ¬ hasFence (stripCodeFences x)) :
    stripCodeFences (stripCodeFences x) = stripCodeFences x := by
  have hy := trim_stripCodeFences x
  generalize stripCodeFences x = y at h hy
  unfold stripCodeFences
  split
  · next he => exact he.symm
  · have hpre : ¬ fence <+: y.data := fun hp => h hp.isInfix
    rw [removeOpeningFence_of_no_fence_start _ hpre, removeClosingFence_of_no_fence _ h]
    exact hy

/-- Claim C1, witness of the amended statement on a fenced text. -/
theorem stripCodeFences_idempotent_of_clean_witness :
    ¬ hasFence (stripCodeFences "```html\nHELLO\n```") ∧
      stripCodeFences (stripCodeFences "```html\nHELLO\n```") =
        stripCodeFences "```html\nHELLO\n```" :=
  ⟨by decide, stripCodeFences_idempotent_of_clean "```html\nHELLO\n```" (by decide)⟩

/-- Claim C2, the failing inputs.  The text `a` + marker + line feed + `b` does
not start with a marker and its only marker is followed later by the letter `b`,
yet the marker is removed because it ends a line: the result is not the trimmed
input.  On a fenced text with an inner marker line the inner marker is removed and
the closing marker, the one followed by nothing up to the end of the text, is
kept. -/
theorem stripCodeFences_removes_line_end_marker :
    ¬ fence <+: ("a```\nb" : String).data ∧
      (∀ pre post, ("a```\nb" : String).data = pre ++ fence ++ post →
        ∃ c ∈ post, isJsSpace c = false) ∧
      stripCodeFences "a```\nb" = "a\nb" ∧
      stripCodeFences "a```\nb" ≠ trim "a```\nb" ∧
      stripCodeFences "```js\nA\n```\nmid\n```" = "A\n\nmid\n```" := by
  refine ⟨by decide, ?_, by decide, by decide, by decide⟩
  intro pre post h
  have hd : ("a```\nb" : String).data = ['a', backtick, backtick, backtick, '\n', 'b'] := by
    decide
  rw [hd] at h
  have hb : isJsSpace 'b' = false := by decide
  rcases pre with _ | ⟨p0, _ | ⟨p1, _ | ⟨p2, _ | ⟨p3, _ | ⟨p4, _ | ⟨p5, pre⟩⟩⟩⟩⟩⟩ <;>
    simp [fence, backtick] at h
  · exact ⟨'b', by simp [← h.2], hb⟩

/-- The closing replacement removes the leftmost marker after which `[\s]*$`
matches, together with the whitespace the star consumed, wherever in the text
that marker stands. -/
theorem removeClosingFence_first_match (pre post : List Char) (k : Nat)
    (hpre : ∀ p1 p2, pre ++ fence ++ post = p1 ++ p2 → p1.length < pre.length →
      closingFenceAt p2 = none)
    (hk : matchSpacesToLineEnd post = some k) :
    removeClosingFence (pre ++ fence ++ post) = pre ++ post.drop k := by
  induction pre with
  | nil =>
    have hat : closingFenceAt (backtick :: backtick :: backtick :: post) =
        some (post.drop k) := by
      have haf : afterFence (backtick :: backtick :: backtick :: post) = some post :=
        afterFence_append post
      simp [closingFenceAt, haf, hk]
    show removeClosingFence (backtick :: backtick :: backtick :: post) = post.drop k
    simp [removeClosingFence, hat]
  | cons c cs ih =>
    have hat : closingFenceAt (c :: (cs ++ fence ++ post)) = none :=
      hpre [] _ (by simp) (by simp)
    have hrest := ih (fun p1 p2 h12 hlt => hpre (c :: p1) p2 (by simp [h12]) (by simpa using hlt))
    show removeClosingFence (c :: (cs ++ fence ++ post)) = c :: (cs ++ post.drop k)
    unfold removeClosingFence
    rw [hat, hrest]

/-- When the text does not start with a triple backtick and every triple backtick
is followed, before any line terminator, by a character that is not whitespace,
neither pattern matches and the text is only trimmed. -/
theorem stripCodeFences_eq_trim (text : String)
    (hstart : ¬ fence <+: text.data)
    (hocc : ∀ pre post, text.data = pre ++ fence ++ post →
      ∃ gap c rest, post = gap ++ c :: rest ∧
        (∀ x ∈ gap, isLineTerminator x = false) ∧ isJsSpace c = false) :
    stripCodeFences text = trim text := by
  unfold stripCodeFences
  split
  · next he => subst he; decide
  · rw [removeOpeningFence_of_no_fence_start _ hstart, removeClosingFence_of_no_match]
    intro pre post h
    obtain ⟨gap, c, rest, hpost, hgap, hc⟩ := hocc pre post h
    rw [hpost]
    exact matchSpacesToLineEnd_blocked gap c rest hgap hc

/-- A marker that stands inside a line stays. -/
theorem stripCodeFences_eq_trim_example :
    stripCodeFences " a``` b\n" = "a``` b" ∧ trim " a``` b\n" = "a``` b" := by
  have hd : (" a``` b\n" : String).data =
      [' ', 'a', backtick, backtick, backtick, ' ', 'b', '\n'] := by decide
  have key := stripCodeFences_eq_trim " a``` b\n" (by decide) (by
    intro pre post h
    rw [hd] at h
    refine ⟨[' '], 'b', ['\n'], ?_, by decide, by decide⟩
    rcases pre with _ | ⟨p0, _ | ⟨p1, _ | ⟨p2, _ | ⟨p3, _ | ⟨p4, _ | ⟨p5, _ | ⟨p6, _ |
      ⟨p7, pre⟩⟩⟩⟩⟩⟩⟩⟩ <;> simp [fence, backtick] at h
    · simp [← h.2])
  exact ⟨key.trans (by decide), by decide⟩

/-- Claim C4: for every body `b` without leading or trailing whitespace and
without a triple backtick, and every language tag `t` without a line feed,
sanitising the marker, `t`, a line feed, `b`, a line feed and the marker gives
back `b`. -/
theorem stripCodeFences_fenced (t b : String)
    (ht : '\n' ∉ t.data) (hb : ¬ hasFence b)
    (hhead : ∀ c, b.data.head? = some c → isJsSpace c = false)
    (hlast : ∀ c, b.data.getLast? = some c → isJsSpace c = false) :
    stripCodeFences ("```" ++ t ++ "\n" ++ b ++ "\n```") = b := by
  have hdata : ("```" ++ t ++ "\n" ++ b ++ "\n```").data =
      fence ++ (t.data ++ '\n' :: (b.data ++ '\n' :: fence)) := by
    simp [String.data_append, fence_data]
    rfl
  have hne : ("```" ++ t ++ "\n" ++ b ++ "\n```") ≠ "" := by
    intro he
    have := congrArg String.data he
    rw [hdata] at this
    simp [fence] at this
  unfold stripCodeFences
  rw [if_neg hne, hdata]
  have hopen : removeOpeningFence (fence ++ (t.data ++ '\n' :: (b.data ++ '\n' :: fence))) =
      b.data ++ '\n' :: fence := by
    simp [removeOpeningFence, afterFence_append, dropWhile_ne_append _ _ ht]
  rw [hopen, removeClosingFence_body _ hb]
  have htrim : trimChars (b.data ++ ['\n']) = b.data := by
    unfold trimChars
    cases hbd : b.data with
    | nil => decide
    | cons a r =>
      rw [hbd] at hhead hlast
      have h1 : (a :: r ++ ['\n']).dropWhile isJsSpace = a :: r ++ ['\n'] :=
        dropWhile_eq_self_of_head _ _ (by
          intro c hc
          exact hhead c (by simpa using hc))
      rw [h1, List.rdropWhile_concat_pos _ _ _ (by decide)]
      exact rdropWhile_eq_self_of_getLast _ _ hlast
  show trim ⟨b.data ++ ['\n']⟩ = b
  simp [trim, htrim]

/-- Claim C4, witness: the tag `html` and the body `HELLO`. -/
theorem stripCodeFences_fenced_witness :
    stripCodeFences ("```" ++ "html" ++ "\n" ++ "HELLO" ++ "\n```") = "HELLO" :=
  stripCodeFences_fenced "html" "HELLO" (by decide) (by decide) (by decide) (by decide)

/-! ## HTML escaping -/

theorem replaceAllChar_cons (c : Char) (rep : List Char) (x : Char) (s : List Char) :
    replaceAllChar c rep (x :: s) = (if x = c then rep else [x]) ++ replaceAllChar c rep s := by
  simp [replaceAllChar]

theorem replaceAllChar_append (c : Char) (rep : List Char) (a b : List Char) :
    replaceAllChar c rep (a ++ b) = replaceAllChar c rep a ++ replaceAllChar c rep b := by
  simp [replaceAllChar]

theorem escapeHtml_data_cons (x : Char) (s : List Char) :
    (escapeHtml ⟨x :: s⟩).data = escapeChar x ++ (escapeHtml ⟨s⟩).data := by
  simp only [escapeHtml, replaceAllChar_cons, replaceAllChar_append]
  congr 1
  unfold escapeChar
  by_cases h1 : x = '&'
  · subst h1; decide
  · by_cases h2 : x = '<'
    · subst h2; decide
    · by_cases h3 : x = '>'
      · subst h3; decide
      · simp [h1, h2, h3, replaceAllChar]

theorem ampersandsEscaped_nil : AmpersandsEscaped [] := by
  intro pre post h
  simp at h

theorem ampersandsEscaped_cons_ne (c : Char) (l : List Char) (hc : c ≠ '&')
    (hl : AmpersandsEscaped l) : AmpersandsEscaped (c :: l) := by
  intro pre post h
  cases pre with
  | nil =>
    simp at h
    exact absurd h.1 hc
  | cons p pre =>
    simp at h
    exact hl pre post h.2

theorem ampersandsEscaped_cons_amp (l : List Char) (ht : EntityTail l)
    (hl : AmpersandsEscaped l) : AmpersandsEscaped ('&' :: l) := by
  intro pre post h
  cases pre with
  | nil =>
    simp at h
    rw [← h]
    exact ht
  | cons p pre =>
    simp at h
    exact hl pre post h.2

theorem escapeChar_safe (x : Char) (l : List Char) (hl : AmpersandsEscaped l) :
    AmpersandsEscaped (escapeChar x ++ l) := by
  unfold escapeChar
  by_cases h1 : x = '&'
  · rw [if_pos h1]
    show AmpersandsEscaped ('&' :: 'a' :: 'm' :: 'p' :: ';' :: l)
    apply ampersandsEscaped_cons_amp
    · exact Or.inl ⟨l, rfl⟩
    · exact ampersandsEscaped_cons_ne _ _ (by decide) (ampersandsEscaped_cons_ne _ _ (by decide)
        (ampersandsEscaped_cons_ne _ _ (by decide) (ampersandsEscaped_cons_ne _ _ (by decide) hl)))
  · rw [if_neg h1]
    by_cases h2 : x = '<'
    · rw [if_pos h2]
      show AmpersandsEscaped ('&' :: 'l' :: 't' :: ';' :: l)
      apply ampersandsEscaped_cons_amp
      · exact Or.inr (Or.inl ⟨l, rfl⟩)
      · exact ampersandsEscaped_cons_ne _ _ (by decide) (ampersandsEscaped_cons_ne _ _ (by decide)
          (ampersandsEscaped_cons_ne _ _ (by decide) hl))
    · rw [if_neg h2]
      by_cases h3 : x = '>'
      · rw [if_pos h3]
        show AmpersandsEscaped ('&' :: 'g' :: 't' :: ';' :: l)
        apply ampersandsEscaped_cons_amp
        · exact Or.inr (Or.inr ⟨l, rfl⟩)
        · exact ampersandsEscaped_cons_ne _ _ (by decide) (ampersandsEscaped_cons_ne _ _ (by decide)
            (ampersandsEscaped_cons_ne _ _ (by decide) hl))
      · rw [if_neg h3]
        exact ampersandsEscaped_cons_ne _ _ h1 hl

theorem escapeChar_no_angle (x c : Char) (hc : c ∈ escapeChar x) : c ≠ '<' ∧ c ≠ '>' := by
  unfold escapeChar at hc
  by_cases h1 : x = '&'
  · rw [if_pos h1] at hc
    have : c = '&' ∨ c = 'a' ∨ c = 'm' ∨ c = 'p' ∨ c = ';' := by simpa using hc
    rcases this with h | h | h | h | h <;> subst h <;> decide
  · rw [if_neg h1] at hc
    by_cases h2 : x = '<'
    · rw [if_pos h2] at hc
      have : c = '&' ∨ c = 'l' ∨ c = 't' ∨ c = ';' := by simpa using hc
      rcases this with h | h | h | h <;> subst h <;> decide
    · rw [if_neg h2] at hc
      by_cases h3 : x = '>'
      · rw [if_pos h3] at hc
        have : c = '&' ∨ c = 'g' ∨ c = 't' ∨ c = ';' := by simpa using hc
        rcases this with h | h | h | h <;> subst h <;> decide
      · rw [if_neg h3] at hc
        have : c = x := by simpa using hc
        subst this
        exact ⟨h2, h3⟩

theorem escapeHtml_chars (s : List Char) :
    (∀ c ∈ (escapeHtml ⟨s⟩).data, c ≠ '<' ∧ c ≠ '>') ∧
      AmpersandsEscaped (escapeHtml ⟨s⟩).data := by
  induction s with
  | nil =>
    refine ⟨?_, ?_⟩
    · intro c hc
      simp [escapeHtml, replaceAllChar] at hc
    · have : (escapeHtml ⟨[]⟩).data = [] := by simp [escapeHtml, replaceAllChar]
      rw [this]
      exact ampersandsEscaped_nil
  | cons x s ih =>
    rw [escapeHtml_data_cons]
    refine ⟨?_, escapeChar_safe x _ ih.2⟩
    intro c hc
    rcases List.mem_append.1 hc with h | h
    · exact escapeChar_no_angle x c h
    · exact ih.1 c h

/-- Claim C5: for every string `s`, `escapeHtml s` contains neither `<` nor `>`,
and each of its ampersands starts one of the entities `&amp;`, `&lt;`, `&gt;`;
the document of `openInfoTab` is a fixed template in which the title and the body
text occur only through `escapeHtml`. -/
theorem escapeHtml_neutralises_markup (s : String) :
    '<' ∉ (escapeHtml s).data ∧ '>' ∉ (escapeHtml s).data ∧
      AmpersandsEscaped (escapeHtml s).data ∧
      ∀ (env : Env) (title bodyText : String),
        openInfoTab env title bodyText =
          [Effect.tabCreate
            ("<!doctype html><html><head><meta charset='utf-8'><title>" ++ escapeHtml title ++
              "</title><style>body\x7bfont-family:sans-serif;padding:16px;background:#111;color:#eee;\x7dh1\x7bfont-size:18px;margin:0 0 10px;\x7dpre\x7bwhite-space:pre-wrap;background:#222;padding:8px;border-radius:4px;\x7d</style></head><body><h1>" ++
              escapeHtml title ++ "</h1><pre>" ++ escapeHtml bodyText ++
              "</pre></body></html>")] := by
  have h := escapeHtml_chars s.data
  refine ⟨fun hc => (h.1 _ hc).1 rfl, fun hc => (h.1 _ hc).2 rfl, h.2, ?_⟩
  intro env title bodyText
  simp [openInfoTab, openHtmlInNewTab, infoHtml, String.append_assoc]

/-! ## Decimal numerals -/

theorem digitsValue_foldl (ds : List Char) (a : Nat) :
    ds.foldl (fun acc c => 10 * acc + (c.toNat - 48)) a = a * 10 ^ ds.length + digitsValue ds := by
  induction ds generalizing a with
  | nil => simp [digitsValue]
  | cons d ds ih =>
    simp only [List.foldl_cons, List.length_cons, digitsValue]
    rw [ih (10 * a + (d.toNat - 48)), ih (10 * 0 + (d.toNat - 48))]
    ring

theorem digitChar_mem (d : Nat) (hd : d < 10) : Nat.digitChar d ∈ decimalDigits := by
  revert d
  decide

theorem digitChar_value (d : Nat) (hd : d < 10) : (Nat.digitChar d).toNat - 48 = d := by
  revert d
  decide

theorem toDigitsCore_mem (fuel n : Nat) (ds : List Char) (hds : ∀ c ∈ ds, c ∈ decimalDigits) :
    ∀ c ∈ Nat.toDigitsCore 10 fuel n ds, c ∈ decimalDigits := by
  induction fuel generalizing n ds with
  | zero => simpa [Nat.toDigitsCore] using hds
  | succ fuel ih =>
    have hd : Nat.digitChar (n % 10) ∈ decimalDigits := digitChar_mem _ (Nat.mod_lt _ (by decide))
    have hcons : ∀ c ∈ Nat.digitChar (n % 10) :: ds, c ∈ decimalDigits := by
      intro c hc
      rcases List.mem_cons.1 hc with h | h
      · rw [h]; exact hd
      · exact hds c h
    simp only [Nat.toDigitsCore]
    split
    · exact hcons
    · exact ih _ _ hcons

theorem toDigitsCore_ne_nil (fuel n : Nat) (ds : List Char) :
    Nat.toDigitsCore 10 (fuel + 1) n ds ≠ [] := by
  induction fuel generalizing n ds with
  | zero =>
    simp only [Nat.toDigitsCore]
    split <;> simp
  | succ fuel ih =>
    rw [Nat.toDigitsCore]
    split
    · simp
    · exact ih _ _

theorem toDigitsCore_value (fuel n : Nat) (ds : List Char) (h : n < fuel) :
    digitsValue (Nat.toDigitsCore 10 fuel n ds) = n * 10 ^ ds.length + digitsValue ds := by
  induction fuel generalizing n ds with
  | zero => omega
  | succ fuel ih =>
    have hv : digitsValue (Nat.digitChar (n % 10) :: ds) =
        (n % 10) * 10 ^ ds.length + digitsValue ds := by
      have := digitsValue_foldl ds (10 * 0 + ((Nat.digitChar (n % 10)).toNat - 48))
      simp only [digitsValue, List.foldl_cons]
      rw [this, digitChar_value _ (Nat.mod_lt _ (by decide))]
      simp [digitsValue]
    simp only [Nat.toDigitsCore]
    split
    · next h0 =>
      rw [hv]
      have : n % 10 = n := by omega
      rw [this]
    · next h0 =>
      have hlt : n / 10 < fuel := by omega
      rw [ih _ _ hlt, hv, List.length_cons, pow_succ]
      have hn : n = 10 * (n / 10) + n % 10 := (Nat.div_add_mod n 10).symm
      generalize n / 10 = q at *
      generalize n % 10 = r at *
      subst hn
      ring

theorem toString_data (n : Nat) : (toString n).data = Nat.toDigits 10 n := rfl

theorem toDigits_mem (n : Nat) : ∀ c ∈ Nat.toDigits 10 n, c ∈ decimalDigits :=
  toDigitsCore_mem _ _ _ (by simp)

theorem toDigits_ne_nil (n : Nat) : Nat.toDigits 10 n ≠ [] :=
  toDigitsCore_ne_nil _ _ _

theorem toDigits_value (n : Nat) : digitsValue (Nat.toDigits 10 n) = n := by
  have := toDigitsCore_value (n + 1) n [] (by omega)
  simpa [Nat.toDigits, digitsValue] using this

theorem decimalDigits_props :
    ∀ c ∈ decimalDigits, c.isDigit = true ∧ isJsSpace c = false ∧ c ≠ '-' ∧ c ≠ '+' ∧
      c ≠ '&' ∧ c ≠ '<' ∧ c ≠ '>' := by
  decide

/-- `parseInt` reads back the decimal numeral of a natural number. -/
theorem parseInt_toString (n : Nat) : parseInt (toString n) = some (n : Int) := by
  have hmem := toDigits_mem n
  have hne := toDigits_ne_nil n
  have hval := toDigits_value n
  unfold parseInt
  rw [toString_data]
  generalize Nat.toDigits 10 n = ds at hmem hne hval
  cases ds with
  | nil => exact absurd rfl hne
  | cons d r =>
    have hd := decimalDigits_props d (hmem d (by simp))
    have hdrop : (d :: r).dropWhile isJsSpace = d :: r := by
      simp [List.dropWhile, hd.2.1]
    have htake : (d :: r).takeWhile Char.isDigit = d :: r := by
      rw [List.takeWhile_eq_self_iff]
      intro c hc
      exact (decimalDigits_props c (hmem c hc)).1
    have hsign : (match d :: r with
        | '-' :: t => (true, t)
        | '+' :: t => (false, t)
        | t => (false, t)) = (false, d :: r) := by
      split
      · next heq => simp at heq; exact absurd heq.1 hd.2.2.1
      · next heq => simp at heq; exact absurd heq.1 hd.2.2.2.1
      · rfl
    simp only [hdrop, hsign, htake, hval]
    simp

/-! ## Model registry -/

theorem lookup_textOrMissing (fields : List (String × JsVal)) (key : String)
    (h : ∀ kv ∈ fields, IsTextOrMissing kv.2) :
    IsTextOrMissing ((fields.lookup key).getD .undefined) := by
  induction fields with
  | nil => exact Or.inl rfl
  | cons kv rest ih =>
    obtain ⟨k, v⟩ := kv
    have hrest := ih (fun x hx => h x (List.mem_cons_of_mem _ hx))
    simp only [List.lookup]
    split
    · exact h (k, v) (List.mem_cons_self _ _)
    · exact hrest

theorem nonEmptyText_orElse (v w : JsVal) (hv : IsTextOrMissing v) (hw : NonEmptyText w) :
    NonEmptyText (v.orElse w) := by
  unfold JsVal.orElse
  rcases hv with h | h | ⟨s, h⟩
  · subst h; simpa [JsVal.truthy] using hw
  · subst h; simpa [JsVal.truthy] using hw
  · subst h
    by_cases hs : s = ""
    · simpa [JsVal.truthy, hs] using hw
    · simp only [JsVal.truthy, bne_iff_ne, ne_eq, hs, not_false_eq_true, if_true]
      exact ⟨s, rfl, hs⟩

theorem append_toString_ne_empty (head : String) (n : Nat) : head ++ toString n ≠ "" := by
  intro h
  have hd := congrArg String.data h
  rw [String.data_append, toString_data] at hd
  exact toDigits_ne_nil n (List.append_eq_nil.1 hd).2

theorem normalizeModel_obj (fields : List (String × JsVal)) (idx : Nat) :
    normalizeModel (.obj fields) idx = .ok
      { id := ((fields.lookup "id").getD .undefined).orElse (.str ("model-" ++ toString idx))
        label := ((fields.lookup "label").getD .undefined).orElse
          (((fields.lookup "name").getD .undefined).orElse
            (((fields.lookup "model").getD .undefined).orElse
              (.str ("Model " ++ toString (idx + 1)))))
        provider := ((fields.lookup "provider").getD .undefined).orElse (.str "openai")
        model := ((fields.lookup "model").getD .undefined).orElse (.str "gpt-4.1") } := by
  simp only [normalizeModel, orElseM, JsVal.getProp, JsVal.orElse, bind, Except.bind, pure,
    Except.pure]
  split_ifs <;> rfl

theorem normalizeModel_entry (fields : List (String × JsVal)) (idx : Nat)
    (hf : ∀ kv ∈ fields, IsTextOrMissing kv.2) :
    ∃ spec, normalizeModel (.obj fields) idx = .ok spec ∧
      (NonEmptyText spec.id ∧ NonEmptyText spec.label ∧
        NonEmptyText spec.provider ∧ NonEmptyText spec.model) := by
  refine ⟨_, normalizeModel_obj fields idx, ?_, ?_, ?_, ?_⟩
  · exact nonEmptyText_orElse _ _ (lookup_textOrMissing _ _ hf)
      ⟨_, rfl, append_toString_ne_empty _ _⟩
  · exact nonEmptyText_orElse _ _ (lookup_textOrMissing _ _ hf)
      (nonEmptyText_orElse _ _ (lookup_textOrMissing _ _ hf)
        (nonEmptyText_orElse _ _ (lookup_textOrMissing _ _ hf)
          ⟨_, rfl, append_toString_ne_empty _ _⟩))
  · exact nonEmptyText_orElse _ _ (lookup_textOrMissing _ _ hf) ⟨_, rfl, by decide⟩
  · exact nonEmptyText_orElse _ _ (lookup_textOrMissing _ _ hf) ⟨_, rfl, by decide⟩

theorem normalizeFrom_entries (items : List JsVal) (idx : Nat)
    (h : ∀ m ∈ items, IsPartialEntry m) :
    ∃ specs, normalizeFrom idx items = .ok specs ∧ specs.length = items.length ∧
      ∀ spec ∈ specs, NonEmptyText spec.id ∧ NonEmptyText spec.label ∧
        NonEmptyText spec.provider ∧ NonEmptyText spec.model := by
  induction items generalizing idx with
  | nil => exact ⟨[], rfl, rfl, by simp⟩
  | cons m ms ih =>
    obtain ⟨fields, hm, hf⟩ := h m (List.mem_cons_self _ _)
    obtain ⟨rest, hrest, hlen, hgood⟩ := ih (idx + 1) (fun x hx => h x (List.mem_cons_of_mem _ hx))
    subst hm
    obtain ⟨sp, hsp, hg⟩ := normalizeModel_entry fields idx hf
    refine ⟨sp :: rest, ?_, ?_, ?_⟩
    · simp only [normalizeFrom, hsp, hrest, bind, Except.bind, pure, Except.pure]
    · simp [hlen]
    · intro spec hspec
      rcases List.mem_cons.1 hspec with hs | hs
      · subst hs
        exact hg
      · exact hgood spec hs

/-- For every non-empty persisted list whose entries are objects with any of their
fields missing or empty, `getModelOptions` returns without error, one entry per
persisted entry, and in every returned entry the fields `id`, `label`, `provider`
and `model` are non-empty texts. -/
theorem getModelOptions_fields_populated (items : List JsVal) (hne : items ≠ [])
    (h : ∀ m ∈ items, IsPartialEntry m) :
    ∃ specs, getModelOptions (.arr items) = .ok specs ∧ specs.length = items.length ∧
      ∀ spec ∈ specs, NonEmptyText spec.id ∧ NonEmptyText spec.label ∧
        NonEmptyText spec.provider ∧ NonEmptyText spec.model := by
  cases items with
  | nil => exact absurd rfl hne
  | cons m ms => exact normalizeFrom_entries (m :: ms) 0 h

/-- An entry with only a `name`, an empty object, and an entry whose fields are
all empty. -/
theorem getModelOptions_fields_populated_example :
    ∃ specs, getModelOptions (.arr [.obj [("name", .str "Mine")], .obj [],
        .obj [("id", .str ""), ("label", .str ""), ("provider", .null), ("model", .str "")]]) =
          .ok specs ∧ specs.length = 3 ∧
      ∀ spec ∈ specs, NonEmptyText spec.id ∧ NonEmptyText spec.label ∧
        NonEmptyText spec.provider ∧ NonEmptyText spec.model :=
  getModelOptions_fields_populated _ (by simp) (by
    intro m hm
    simp only [List.mem_cons, List.mem_singleton, List.not_mem_nil, or_false] at hm
    rcases hm with h | h | h
    · exact ⟨_, h, by simp [IsTextOrMissing]⟩
    · exact ⟨_, h, by simp⟩
    · exact ⟨_, h, by simp [IsTextOrMissing]⟩)

/-- Claim C7: when the persisted model list is absent (`null`), not an array, or
an empty array, `getModelOptions` returns the entries of `DEFAULT_MODELS`, in the
same order and with all four fields unchanged. -/
theorem getModelOptions_default (stored : JsVal)
    (h : stored.isArray = false ∨ stored = .arr []) :
    ∃ specs, getModelOptions stored = .ok specs ∧
      specs.map ModelSpec.toObject = DEFAULT_MODELS := by
  have hdef : ∃ specs, normalizeFrom 0 DEFAULT_MODELS = .ok specs ∧
      specs.map ModelSpec.toObject = DEFAULT_MODELS := ⟨_, rfl, rfl⟩
  cases stored with
  | arr items =>
    rcases h with h | h
    · simp [JsVal.isArray] at h
    · cases h
      exact hdef
  | undefined => exact hdef
  | null => exact hdef
  | bool b => exact hdef
  | num n => exact hdef
  | str s => exact hdef
  | obj fields => exact hdef

/-- Claim C7, witness: nothing was ever saved. -/
theorem getModelOptions_default_witness :
    ∃ specs, getModelOptions .null = .ok specs ∧
      specs.map ModelSpec.toObject = DEFAULT_MODELS :=
  getModelOptions_default .null (Or.inl rfl)

/-! ## Menu ids -/

theorem childMenusFrom_get (specs : List ModelSpec) (k i : Nat) (hi : i < specs.length) :
    (childMenusFrom k specs).get? i =
      some (MenuOp.create (childMenuId (k + i)) (some "bugtest-root")
        (specs.get ⟨i, hi⟩).label) := by
  induction specs generalizing k i with
  | nil => simp at hi
  | cons m ms ih =>
    cases i with
    | zero => simp [childMenusFrom]
    | succ j =>
      have hj : j < ms.length := by simpa using hi
      have := ih (k + 1) j hj
      simp only [childMenusFrom, List.get?_cons_succ, this, List.get_cons_succ]
      congr 3
      omega

theorem startsWith_childMenuId (i : Nat) : startsWith (childMenuId i) modelIdHead = true := by
  unfold startsWith childMenuId
  rw [String.data_append, List.isPrefixOf_iff_prefix]
  exact List.prefix_append _ _

theorem slice_childMenuId (i : Nat) : slice (childMenuId i) modelIdHead.length = toString i := by
  have hlen : modelIdHead.length = modelIdHead.data.length := rfl
  unfold slice childMenuId
  rw [String.data_append, hlen, List.drop_left]

theorem modelAt_natCast (specs : List ModelSpec) (n : Nat) :
    modelAt specs (some (n : Int)) = specs.get? n := rfl

theorem selectModel_none (specs : List ModelSpec) (id : String)
    (h : ∀ n : Nat, n < specs.length → parseInt (slice id modelIdHead.length) ≠ some (n : Int)) :
    selectModel specs id = none := by
  unfold selectModel
  cases hp : parseInt (slice id modelIdHead.length) with
  | none => rfl
  | some z =>
    cases z with
    | ofNat n =>
      have hn : ¬ n < specs.length := fun hlt => h n hlt hp
      simp only [modelAt]
      exact List.get?_eq_none.2 (by omega)
    | negSucc n => rfl

/-- Claim C10: for every resolved model list and every position `i` in it, the
child menu entry that `ensureMenus` creates for position `i` has the id
`bugtest-model-` followed by the decimal numeral of `i` and the label of the
`i`-th entry; the click listener accepts that id, parses it back to `i` and
selects the `i`-th entry, so that with an unchanged list a click on it runs that
entry; and a click whose id parses to no position of the current list shows the
model-not-found page and does nothing else. -/
theorem menu_id_resolves (env : Env) (specs : List ModelSpec)
    (hmodels : getModelOptions env.models = .ok specs) (i : Nat) (hi : i < specs.length) :
    (∃ ops, ensureMenus env = .ok ops ∧
        ops.get? (i + 2) =
          some (MenuOp.create ("bugtest-model-" ++ toString i) (some "bugtest-root")
            (specs.get ⟨i, hi⟩).label)) ∧
      startsWith ("bugtest-model-" ++ toString i) modelIdHead = true ∧
      parseInt (slice ("bugtest-model-" ++ toString i) modelIdHead.length) = some (i : Int) ∧
      selectModel specs ("bugtest-model-" ++ toString i) = some (specs.get ⟨i, hi⟩) ∧
      (∀ sel : String, sel ≠ "" →
        onClicked env ⟨some sel, .str ("bugtest-model-" ++ toString i)⟩ =
          runModel env (specs.get ⟨i, hi⟩) sel) ∧
      (∀ sel id : String, sel ≠ "" → startsWith id modelIdHead = true →
        (∀ n : Nat, n < specs.length →
          parseInt (slice id modelIdHead.length) ≠ some (n : Int)) →
        onClicked env ⟨some sel, .str id⟩ =
          [Effect.tabCreate (infoHtml "Repro Wizard - Model not found" notFoundBody)]) := by
  have hid : ("bugtest-model-" ++ toString i) = childMenuId i := rfl
  rw [hid]
  have hparse : parseInt (slice (childMenuId i) modelIdHead.length) = some (i : Int) := by
    rw [slice_childMenuId, parseInt_toString]
  have hselect : selectModel specs (childMenuId i) = some (specs.get ⟨i, hi⟩) := by
    unfold selectModel
    rw [hparse, modelAt_natCast]
    exact List.get?_eq_get hi
  refine ⟨?_, startsWith_childMenuId i, hparse, hselect, ?_, ?_⟩
  · have hops : ensureMenus env = .ok (MenuOp.removeAll ::
        MenuOp.create "bugtest-root" none (.str "Generate test page") ::
        childMenusFrom 0 specs) := by
      simp only [ensureMenus, hmodels, bind, Except.bind, pure, Except.pure]
    refine ⟨_, hops, ?_⟩
    have := childMenusFrom_get specs 0 i hi
    simpa using this
  · intro sel hsel
    simp [onClicked, hsel, startsWith_childMenuId, hmodels, hselect]
  · intro sel id hsel hid hno
    simp [onClicked, hsel, hid, hmodels, selectModel_none specs id hno, openInfoTab,
      openHtmlInNewTab, notFoundTitle]

/-- Claim C10, witness: with the built-in entries, the id of position 1 selects
the second entry, and the stale id of position 7 leads to the not-found page. -/
theorem menu_id_resolves_witness :
    selectModel defaultSpecs ("bugtest-model-" ++ toString 1) =
        some ⟨.str "openai-gpt-4.1-mini", .str "OpenAI - gpt-4.1-mini", .str "openai",
          .str "gpt-4.1-mini"⟩ ∧
      onClicked (sampleEnv "" "") ⟨some "crash on load", .str "bugtest-model-7"⟩ =
        [Effect.tabCreate (infoHtml "Repro Wizard - Model not found" notFoundBody)] :=
  have h := menu_id_resolves (sampleEnv "" "") defaultSpecs rfl 1 (by decide)
  ⟨h.2.2.2.1, h.2.2.2.2.2 "crash on load" "bugtest-model-7" (by decide) (by decide) (by
    intro n hn hp
    have h7 : parseInt (slice "bugtest-model-7" modelIdHead.length) = some 7 := by decide
    rw [h7] at hp
    have hlen : defaultSpecs.length = 3 := rfl
    rw [hlen] at hn
    have h8 : (7 : Int) = (n : Int) := Option.some.inj hp
    omega)⟩

/-! ## Click dispatch -/

theorem onClicked_resolved (env : Env) (sel id : String) (specs : List ModelSpec)
    (model : ModelSpec) (hsel : sel ≠ "") (hid : startsWith id modelIdHead = true)
    (hmodels : getModelOptions env.models = .ok specs)
    (hmodel : selectModel specs id = some model) :
    onClicked env ⟨some sel, .str id⟩ = runModel env model sel := by
  simp [onClicked, hsel, hid, hmodels, hmodel]

/-- Claim C8: for every click with a non-empty selection on a model menu id that
resolves to an entry, if the entry is an `openai` entry and the OpenAI key is
empty, or a `gemini` entry and the Gemini key is empty, the listener performs no
`fetch` and its only effect is the tab with the setup page of that provider. -/
theorem missing_key_shows_setup (env : Env) (sel id : String) (specs : List ModelSpec)
    (model : ModelSpec) (hsel : sel ≠ "") (hid : startsWith id modelIdHead = true)
    (hmodels : getModelOptions env.models = .ok specs)
    (hmodel : selectModel specs id = some model) :
    (model.provider = .str "openai" → env.openaiApiKey = "" →
        onClicked env ⟨some sel, .str id⟩ =
          [Effect.tabCreate (infoHtml "Repro Wizard - OpenAI setup required" openaiSetupBody)]) ∧
      (model.provider = .str "gemini" → env.geminiApiKey = "" →
        onClicked env ⟨some sel, .str id⟩ =
          [Effect.tabCreate (infoHtml "Repro Wizard - Gemini setup required" geminiSetupBody)]) := by
  rw [onClicked_resolved env sel id specs model hsel hid hmodels hmodel]
  constructor
  · intro hp hk
    simp [runModel, hp, hk, JsVal.isStr, openInfoTab, openHtmlInNewTab, openaiSetupTitle]
  · intro hp hk
    simp [runModel, hp, hk, JsVal.isStr, openInfoTab, openHtmlInNewTab, geminiSetupTitle]

/-- Claim C8, witness: no key at all, a click on the first and on the third of
the built-in entries. -/
theorem missing_key_shows_setup_witness :
    onClicked (sampleEnv "" "") ⟨some "crash on load", .str "bugtest-model-0"⟩ =
        [Effect.tabCreate (infoHtml "Repro Wizard - OpenAI setup required" openaiSetupBody)] ∧
      onClicked (sampleEnv "" "") ⟨some "crash on load", .str "bugtest-model-2"⟩ =
        [Effect.tabCreate (infoHtml "Repro Wizard - Gemini setup required" geminiSetupBody)] :=
  ⟨(missing_key_shows_setup (sampleEnv "" "") "crash on load" "bugtest-model-0" defaultSpecs
      ⟨.str "openai-gpt-4.1", .str "OpenAI - gpt-4.1", .str "openai", .str "gpt-4.1"⟩
      (by decide) (by decide) rfl rfl).1 rfl rfl,
    (missing_key_shows_setup (sampleEnv "" "") "crash on load" "bugtest-model-2" defaultSpecs
      ⟨.str "gemini-2.5-flash", .str "Gemini - gemini-2.5-flash", .str "gemini",
        .str "gemini-2.5-flash"⟩
      (by decide) (by decide) rfl rfl).2 rfl rfl⟩

/-! ## Provider failures -/

theorem includes_append_left (a b n : String) (h : includes a n) : includes (a ++ b) n := by
  unfold includes at *
  rw [String.data_append]
  exact h.trans (List.prefix_append _ _).isInfix

theorem includes_append_right (a b n : String) (h : includes b n) : includes (a ++ b) n := by
  unfold includes at *
  rw [String.data_append]
  exact h.trans (List.suffix_append _ _).isInfix

theorem includes_self (n : String) : includes n n := List.infix_refl _

theorem escapeHtml_append (a b : String) : escapeHtml (a ++ b) = escapeHtml a ++ escapeHtml b := by
  apply String.ext
  simp [escapeHtml, String.data_append, replaceAllChar_append]

theorem escapeHtml_plain (l : List Char) (h : ∀ c ∈ l, c ≠ '&' ∧ c ≠ '<' ∧ c ≠ '>') :
    (escapeHtml ⟨l⟩).data = l := by
  induction l with
  | nil => simp [escapeHtml, replaceAllChar]
  | cons x l ih =>
    have hx := h x (List.mem_cons_self _ _)
    rw [escapeHtml_data_cons, ih (fun c hc => h c (List.mem_cons_of_mem _ hc))]
    simp [escapeChar, hx.1, hx.2.1, hx.2.2]

theorem escapeHtml_toString (n : Nat) : escapeHtml (toString n) = toString n := by
  apply String.ext
  apply escapeHtml_plain
  intro c hc
  have := decimalDigits_props c (toDigits_mem n c hc)
  exact ⟨this.2.2.2.2.1, this.2.2.2.2.2.1, this.2.2.2.2.2.2⟩

theorem infoHtml_includes (title head tail : String) (n : Nat) :
    includes (infoHtml title (head ++ toString n ++ tail)) (toString n) := by
  unfold infoHtml
  rw [escapeHtml_append, escapeHtml_append, escapeHtml_toString]
  apply includes_append_left
  apply includes_append_left
  apply includes_append_right
  apply includes_append_left
  apply includes_append_right
  exact includes_self _

theorem runModel_openai_failure (env : Env) (model : ModelSpec) (sel : String)
    (res : HttpResponse) (hp : model.provider = .str "openai") (hk : env.openaiApiKey ≠ "")
    (hfetch : env.fetch (FetchRequest.openai env.openaiApiKey model.model systemPrompt
      (userPrompt sel)) = .response res)
    (hfail : res.ok = false) :
    generateHtmlForModel env model sel =
        ([Effect.fetch (FetchRequest.openai env.openaiApiKey model.model systemPrompt
            (userPrompt sel))],
          .error (.thrown ("OpenAI API error: HTTP " ++ toString res.status ++
            errorBodySuffix " - " res.text))) ∧
      runModel env model sel =
        [Effect.fetch (FetchRequest.openai env.openaiApiKey model.model systemPrompt
            (userPrompt sel)),
          Effect.tabCreate (infoHtml "Repro Wizard - Error"
            ("An error occurred while generating the test page:\n\n" ++
              ("OpenAI API error: HTTP " ++ toString res.status ++
                errorBodySuffix " - " res.text)))] := by
  have hgen : generateHtmlForModel env model sel =
      ([Effect.fetch (FetchRequest.openai env.openaiApiKey model.model systemPrompt
          (userPrompt sel))],
        .error (.thrown ("OpenAI API error: HTTP " ++ toString res.status ++
          errorBodySuffix " - " res.text))) := by
    simp [generateHtmlForModel, hp, JsVal.orElse, JsVal.truthy, JsVal.isStr,
      generateHtmlWithOpenAI, hfetch, hfail]
  have hmsg : ("OpenAI API error: HTTP " ++ toString res.status ++
      errorBodySuffix " - " res.text) ≠ "" := by
    intro h
    have := congrArg String.data h
    simp [String.data_append] at this
  refine ⟨hgen, ?_⟩
  simp [runModel, hp, hk, JsVal.isStr, hgen, showError, errorText, hmsg, openInfoTab,
    openHtmlInNewTab]

theorem runModel_gemini_failure (env : Env) (model : ModelSpec) (sel : String)
    (res : HttpResponse) (hp : model.provider = .str "gemini") (hk : env.geminiApiKey ≠ "")
    (hfetch : env.fetch (FetchRequest.gemini env.geminiApiKey model.model systemPrompt
      (userPrompt sel)) = .response res)
    (hfail : res.ok = false) :
    generateHtmlForModel env model sel =
        ([Effect.fetch (FetchRequest.gemini env.geminiApiKey model.model systemPrompt
            (userPrompt sel))],
          .error (.thrown ("Gemini API error: HTTP " ++ toString res.status ++
            errorBodySuffix " – " res.text))) ∧
      runModel env model sel =
        [Effect.fetch (FetchRequest.gemini env.geminiApiKey model.model systemPrompt
            (userPrompt sel)),
          Effect.tabCreate (infoHtml "Repro Wizard - Error"
            ("An error occurred while generating the test page:\n\n" ++
              ("Gemini API error: HTTP " ++ toString res.status ++
                errorBodySuffix " – " res.text)))] := by
  have hgen : generateHtmlForModel env model sel =
      ([Effect.fetch (FetchRequest.gemini env.geminiApiKey model.model systemPrompt
          (userPrompt sel))],
        .error (.thrown ("Gemini API error: HTTP " ++ toString res.status ++
          errorBodySuffix " – " res.text))) := by
    simp [generateHtmlForModel, hp, JsVal.orElse, JsVal.truthy, JsVal.isStr,
      generateHtmlWithGemini, hfetch, hfail]
  have hmsg : ("Gemini API error: HTTP " ++ toString res.status ++
      errorBodySuffix " – " res.text) ≠ "" := by
    intro h
    have := congrArg String.data h
    simp [String.data_append] at this
  refine ⟨hgen, ?_⟩
  simp [runModel, hp, hk, JsVal.isStr, hgen, showError, errorText, hmsg, openInfoTab,
    openHtmlInNewTab]

/-- Claim C9: for every click that reaches generation, for an `openai` and for a
`gemini` entry alike, when the response has a non-success status the generator
throws an error whose message contains the decimal status code; the listener
performs the one `fetch` and then opens a single tab, the error page built from
that message, which itself shows the status code.  No other document is opened. -/
theorem http_failure_shows_status (env : Env) (sel id : String) (specs : List ModelSpec)
    (model : ModelSpec) (res : HttpResponse) (hsel : sel ≠ "")
    (hid : startsWith id modelIdHead = true)
    (hmodels : getModelOptions env.models = .ok specs)
    (hmodel : selectModel specs id = some model)
    (hfail : res.ok = false) :
    (model.provider = .str "openai" → env.openaiApiKey ≠ "" →
        env.fetch (FetchRequest.openai env.openaiApiKey model.model systemPrompt
          (userPrompt sel)) = .response res →
        ∃ msg, (generateHtmlForModel env model sel).2 = .error (.thrown msg) ∧
          includes msg (toString res.status) ∧
          onClicked env ⟨some sel, .str id⟩ =
            [Effect.fetch (FetchRequest.openai env.openaiApiKey model.model systemPrompt
                (userPrompt sel)),
              Effect.tabCreate (infoHtml "Repro Wizard - Error"
                ("An error occurred while generating the test page:\n\n" ++ msg))] ∧
          includes (infoHtml "Repro Wizard - Error"
            ("An error occurred while generating the test page:\n\n" ++ msg))
            (toString res.status)) ∧
      (model.provider = .str "gemini" → env.geminiApiKey ≠ "" →
        env.fetch (FetchRequest.gemini env.geminiApiKey model.model systemPrompt
          (userPrompt sel)) = .response res →
        ∃ msg, (generateHtmlForModel env model sel).2 = .error (.thrown msg) ∧
          includes msg (toString res.status) ∧
          onClicked env ⟨some sel, .str id⟩ =
            [Effect.fetch (FetchRequest.gemini env.geminiApiKey model.model systemPrompt
                (userPrompt sel)),
              Effect.tabCreate (infoHtml "Repro Wizard - Error"
                ("An error occurred while generating the test page:\n\n" ++ msg))] ∧
          includes (infoHtml "Repro Wizard - Error"
            ("An error occurred while generating the test page:\n\n" ++ msg))
            (toString res.status)) := by
  rw [onClicked_resolved env sel id specs model hsel hid hmodels hmodel]
  constructor
  · intro hp hk hfetch
    obtain ⟨hgen, hrun⟩ := runModel_openai_failure env model sel res hp hk hfetch hfail
    refine ⟨_, by rw [hgen], ?_, hrun, ?_⟩
    · exact includes_append_left _ _ _ (includes_append_right _ _ _ (includes_self _))
    · rw [← String.append_assoc, ← String.append_assoc]
      exact infoHtml_includes _ _ _ _
  · intro hp hk hfetch
    obtain ⟨hgen, hrun⟩ := runModel_gemini_failure env model sel res hp hk hfetch hfail
    refine ⟨_, by rw [hgen], ?_, hrun, ?_⟩
    · exact includes_append_left _ _ _ (includes_append_right _ _ _ (includes_self _))
    · rw [← String.append_assoc, ← String.append_assoc]
      exact infoHtml_includes _ _ _ _

/-- Claim C9, witness: the service answers 503 to a click on the first built-in
entry; the listener fetches once and opens the error page with the message
`OpenAI API error: HTTP 503 - busy`. -/
theorem http_failure_shows_status_witness :
    onClicked (sampleEnv "sk-1" "g-1") ⟨some "crash on load", .str "bugtest-model-0"⟩ =
      [Effect.fetch (FetchRequest.openai "sk-1" (.str "gpt-4.1") systemPrompt
          (userPrompt "crash on load")),
        Effect.tabCreate (infoHtml "Repro Wizard - Error"
          ("An error occurred while generating the test page:\n\n" ++
            "OpenAI API error: HTTP 503 - busy"))] := by
  obtain ⟨msg, hmsg, _, hrun, _⟩ :=
    (http_failure_shows_status (sampleEnv "sk-1" "g-1") "crash on load" "bugtest-model-0"
      defaultSpecs
      ⟨.str "openai-gpt-4.1", .str "OpenAI - gpt-4.1", .str "openai", .str "gpt-4.1"⟩
      { status := 503, text := some "busy", json := .error .typeError }
      (by decide) (by decide) rfl rfl (by decide)).1 rfl (by decide) rfl
  have hm : msg = "OpenAI API error: HTTP 503 - busy" := by
    have h2 : (Except.error (JsError.thrown "OpenAI API error: HTTP 503 - busy") :
        Except JsError JsVal) = .error (.thrown msg) := hmsg
    injection h2 with h3
    injection h3 with h4
    exact h4.symm
  rw [hrun, hm]
  rfl

/-! ## Response extraction -/

/-- Claim C6, the failing input: a Gemini response whose `parts` array holds
`null` makes the text extraction raise a `TypeError` (reading `p.text` of `null`),
and an OpenAI response whose `content` is the number 42 makes the extraction
return that number, not a text. -/
theorem extraction_not_total :
    extractGeminiText (.obj [("candidates",
        .arr [.obj [("content", .obj [("parts", .arr [.null])])]])]) = .error .typeError ∧
      extractOpenAIText (.obj [("choices",
        .arr [.obj [("message", .obj [("content", .num 42)])]])]) = .ok (.num 42) :=
  ⟨rfl, rfl⟩

/-! ## What the extraction does guarantee -/

theorem getProp_ok_of_not_nullish (v : JsVal) (key : String) (h : v.isNullish = false) :
    ∃ w, v.getProp key = .ok w := by
  cases v <;> simp [JsVal.getProp, JsVal.isNullish] at h ⊢

theorem getIndex_ok_of_not_nullish (v : JsVal) (i : Nat) (h : v.isNullish = false) :
    ∃ w, v.getIndex i = .ok w := by
  cases v <;> simp [JsVal.getIndex, JsVal.isNullish] at h ⊢

theorem not_nullish_of_truthy (v : JsVal) (h : v.truthy = true) : v.isNullish = false := by
  cases v <;> simp [JsVal.truthy, JsVal.isNullish] at h ⊢

/-- On every response value other than `null` and `undefined` the OpenAI
extraction returns a value and does not raise. -/
theorem extractOpenAIText_returns (data : JsVal) (h : data.isNullish = false) :
    ∃ v, extractOpenAIText data = .ok v := by
  obtain ⟨choices, hc⟩ := getProp_ok_of_not_nullish data "choices" h
  simp only [extractOpenAIText, hc, bind, Except.bind, pure, Except.pure, JsVal.andThen]
  by_cases h1 : choices.truthy = true
  · obtain ⟨first, hf⟩ := getIndex_ok_of_not_nullish choices 0 (not_nullish_of_truthy _ h1)
    simp only [h1, hf, if_true]
    by_cases h2 : first.truthy = true
    · obtain ⟨message, hm⟩ := getProp_ok_of_not_nullish first "message"
        (not_nullish_of_truthy _ h2)
      simp only [h2, hm, if_true]
      by_cases h3 : message.truthy = true
      · obtain ⟨content, hct⟩ := getProp_ok_of_not_nullish message "content"
          (not_nullish_of_truthy _ h3)
        simp [h3, hct]
      · simp [h3]
    · simp [h2]
  · simp [h1]

/-- A missing `choices`, an empty `choices` array, a first choice without
`message` and a message without `content` all give the empty text. -/
theorem extractOpenAIText_missing :
    extractOpenAIText (.obj []) = .ok (.str "") ∧
      extractOpenAIText (.obj [("choices", .arr [])]) = .ok (.str "") ∧
      extractOpenAIText (.obj [("choices", .arr [.obj []])]) = .ok (.str "") ∧
      extractOpenAIText (.obj [("choices", .arr [.obj [("message", .obj [])]])]) =
        .ok (.str "") :=
  ⟨rfl, rfl, rfl, rfl⟩

theorem partText_of_not_nullish (p : JsVal) (h : p.isNullish = false) :
    partText p = .ok (partTextOf p) := by
  cases p with
  | obj fields =>
    simp only [partText, JsVal.getProp, partTextOf, bind, Except.bind, pure, Except.pure]
    cases hl : fields.lookup "text" with
    | none => rfl
    | some v => cases v <;> rfl
  | null => simp [JsVal.isNullish] at h
  | undefined => simp [JsVal.isNullish] at h
  | bool b => rfl
  | num n => rfl
  | str s => rfl
  | arr items => rfl

theorem partTexts_of_not_nullish (ps : List JsVal) (h : ∀ p ∈ ps, p.isNullish = false) :
    partTexts ps = .ok (ps.map partTextOf) := by
  induction ps with
  | nil => rfl
  | cons p ps ih =>
    have hp := partText_of_not_nullish p (h p (List.mem_cons_self _ _))
    have hps := ih (fun x hx => h x (List.mem_cons_of_mem _ hx))
    simp only [partTexts, hp, hps, bind, Except.bind, pure, Except.pure, List.map_cons]

/-- When the first candidate has a `content` object with a `parts` array none of
whose elements is `null` or `undefined`, the Gemini extraction returns the texts
of the parts, concatenated in order. -/
theorem extractGeminiText_concat (others : List JsVal) (cfields pfields : List (String × JsVal))
    (ps : List JsVal)
    (hcontent : cfields.lookup "content" = some (.obj pfields))
    (hparts : pfields.lookup "parts" = some (.arr ps))
    (hps : ∀ p ∈ ps, p.isNullish = false) :
    extractGeminiText (.obj [("candidates", .arr (.obj cfields :: others))]) =
      .ok (.str (String.join (ps.map partTextOf))) := by
  have h1 : (JsVal.obj [("candidates", .arr (.obj cfields :: others))]).getProp "candidates" =
      .ok (.arr (.obj cfields :: others)) := rfl
  have h2 : (JsVal.arr (.obj cfields :: others)).getIndex 0 = .ok (.obj cfields) := rfl
  have h3 : (JsVal.obj cfields).getProp "content" = .ok (.obj pfields) := by
    simp [JsVal.getProp, hcontent]
  have h4 : (JsVal.obj pfields).getProp "parts" = .ok (.arr ps) := by
    simp [JsVal.getProp, hparts]
  have t1 : (JsVal.arr (.obj cfields :: others)).truthy = true := rfl
  have t2 : (JsVal.obj cfields).truthy = true := rfl
  have t3 : (JsVal.obj pfields).truthy = true := rfl
  have t4 : (JsVal.bool (JsVal.arr ps).isArray).truthy = true := rfl
  unfold extractGeminiText
  simp only [h1, bind, Except.bind, JsVal.orElse, t1, if_true, h2, JsVal.andThen, t2, h3, t3, h4,
    t4, partTexts_of_not_nullish ps hps, pure, Except.pure]
  split
  · rfl
  · next hfalsy =>
    have hempty : String.join (ps.map partTextOf) = "" := by
      simpa [JsVal.truthy] using hfalsy
    rw [hempty]

/-- A missing `candidates`, an empty `candidates` array, a candidate without
`content`, a content without `parts` and a part without `text` all give the empty
text. -/
theorem extractGeminiText_missing :
    extractGeminiText (.obj []) = .ok (.str "") ∧
      extractGeminiText (.obj [("candidates", .arr [])]) = .ok (.str "") ∧
      extractGeminiText (.obj [("candidates", .arr [.obj []])]) = .ok (.str "") ∧
      extractGeminiText (.obj [("candidates", .arr [.obj [("content", .obj [])]])]) =
        .ok (.str "") ∧
      extractGeminiText (.obj [("candidates",
        .arr [.obj [("content", .obj [("parts", .arr [.obj []])])]])]) = .ok (.str "") :=
  ⟨rfl, rfl, rfl, rfl, rfl⟩

theorem orElseM_truthy (a b : Except JsError JsVal) (va vb : JsVal) (ha : a = .ok va)
    (hb : b = .ok vb) (hvb : vb.truthy = true) :
    ∃ v, orElseM a b = .ok v ∧ v.truthy = true := by
  subst ha hb
  by_cases h : va.truthy = true
  · exact ⟨va, by simp [orElseM, bind, Except.bind, pure, Except.pure, h], h⟩
  · exact ⟨vb, by simp [orElseM, bind, Except.bind, h], hvb⟩

theorem truthy_of_append_toString (head : String) (n : Nat) :
    (JsVal.str (head ++ toString n)).truthy = true := by
  simp [JsVal.truthy, append_toString_ne_empty]

/-- Whatever an entry holds, as long as it is not `null` or `undefined` the
callback of `getModelOptions` returns, and its four fields are truthy. -/
theorem normalizeModel_truthy (m : JsVal) (idx : Nat) (h : m.isNullish = false) :
    ∃ spec, normalizeModel m idx = .ok spec ∧ spec.id.truthy = true ∧
      spec.label.truthy = true ∧ spec.provider.truthy = true ∧ spec.model.truthy = true := by
  obtain ⟨vid, hid⟩ := getProp_ok_of_not_nullish m "id" h
  obtain ⟨vlabel, hlabel⟩ := getProp_ok_of_not_nullish m "label" h
  obtain ⟨vname, hname⟩ := getProp_ok_of_not_nullish m "name" h
  obtain ⟨vmodel, hmodel⟩ := getProp_ok_of_not_nullish m "model" h
  obtain ⟨vprov, hprov⟩ := getProp_ok_of_not_nullish m "provider" h
  obtain ⟨rid, hrid, tid⟩ := orElseM_truthy _ _ vid _ hid rfl
    (truthy_of_append_toString "model-" idx)
  obtain ⟨r3, hr3, t3⟩ := orElseM_truthy _ _ vmodel _ hmodel rfl
    (truthy_of_append_toString "Model " (idx + 1))
  obtain ⟨r2, hr2, t2⟩ := orElseM_truthy _ _ vname r3 hname hr3 t3
  obtain ⟨rlabel, hrlabel, tlabel⟩ := orElseM_truthy _ _ vlabel r2 hlabel hr2 t2
  obtain ⟨rprov, hrprov, tprov⟩ := orElseM_truthy _ _ vprov (.str "openai") hprov rfl rfl
  obtain ⟨rmodel, hrmodel, tmodel⟩ := orElseM_truthy _ _ vmodel (.str "gpt-4.1") hmodel rfl rfl
  refine ⟨⟨rid, rlabel, rprov, rmodel⟩, ?_, tid, tlabel, tprov, tmodel⟩
  have hp : (pure (JsVal.str ("model-" ++ toString idx)) : Except JsError JsVal) =
      Except.ok (JsVal.str ("model-" ++ toString idx)) := rfl
  have hp2 : (pure (JsVal.str ("Model " ++ toString (idx + 1))) : Except JsError JsVal) =
      Except.ok (JsVal.str ("Model " ++ toString (idx + 1))) := rfl
  have hp3 : (pure (JsVal.str "openai") : Except JsError JsVal) = Except.ok (JsVal.str "openai") :=
    rfl
  have hp4 : (pure (JsVal.str "gpt-4.1") : Except JsError JsVal) =
      Except.ok (JsVal.str "gpt-4.1") := rfl
  unfold normalizeModel
  rw [hp, hp2, hp3, hp4, hrid, hrlabel, hrprov, hrmodel]
  rfl

theorem normalizeFrom_truthy (items : List JsVal) (idx : Nat)
    (h : ∀ m ∈ items, m.isNullish = false) :
    ∃ specs, normalizeFrom idx items = .ok specs ∧ specs.length = items.length ∧
      ∀ spec ∈ specs, spec.id.truthy = true ∧ spec.label.truthy = true ∧
        spec.provider.truthy = true ∧ spec.model.truthy = true := by
  induction items generalizing idx with
  | nil => exact ⟨[], rfl, rfl, by simp⟩
  | cons m ms ih =>
    obtain ⟨sp, hsp, hg⟩ := normalizeModel_truthy m idx (h m (List.mem_cons_self _ _))
    obtain ⟨rest, hrest, hlen, hgood⟩ := ih (idx + 1) (fun x hx => h x (List.mem_cons_of_mem _ hx))
    refine ⟨sp :: rest, ?_, ?_, ?_⟩
    · simp only [normalizeFrom, hsp, hrest, bind, Except.bind, pure, Except.pure]
    · simp [hlen]
    · intro spec hspec
      rcases List.mem_cons.1 hspec with hs | hs
      · subst hs
        exact hg
      · exact hgood spec hs

/-- As long as no entry of a non-empty persisted list is `null` or `undefined`,
`getModelOptions` returns without error, one entry per persisted entry, each with
four truthy fields. -/
theorem getModelOptions_truthy (items : List JsVal) (hne : items ≠ [])
    (h : ∀ m ∈ items, m.isNullish = false) :
    ∃ specs, getModelOptions (.arr items) = .ok specs ∧ specs.length = items.length ∧
      ∀ spec ∈ specs, spec.id.truthy = true ∧ spec.label.truthy = true ∧
        spec.provider.truthy = true ∧ spec.model.truthy = true := by
  cases items with
  | nil => exact absurd rfl hne
  | cons m ms => exact normalizeFrom_truthy (m :: ms) 0 h

/-- Claim C3, the failing input: a persisted list holding a `null` entry, alone or
after a well-formed entry.  The callback of `models.map` reads `m.id` of `null`,
so `getModelOptions` raises a `TypeError` and returns no entry at all. -/
theorem getModelOptions_null_entry :
    getModelOptions (.arr [.null]) = .error .typeError ∧
      getModelOptions (.arr [modelObject "mine" "Mine" "openai" "gpt-4.1", .null]) =
        .error .typeError :=
  ⟨rfl, rfl⟩

end ReproWizard
